import Mathlib

/-!
Verification development for the ironic_temper reconciliation engine
(sapcc/ironic_temper): a shallow embedding of the orchestration core in
pkg/clients/openstack.go and pkg/provision/errorHandler.go, with theorems
about the nearest-fit flavor matcher, the retry/poll primitive and its call
sites, DNS record creation, node validation, test-instance teardown, rule
application, the compensation handler, and node name splitting.

Remote calls (the OpenStack SDK) are modelled as explicit response streams
passed to the embedded functions: the embedding is faithful to the Go
control flow, with the network replaced by these parameters.
-/

namespace IronicTemper

/-- Outcome of one remote call against the control plane, as the Go code
distinguishes them: success, a gophercloud ErrDefault409 conflict
(wrapped as it is matched by the type switches in openstack.go), or any
other error carrying a message. -/
inductive RemoteResp where
  | ok : RemoteResp
  | conflict409 : RemoteResp
  | otherErr : String → RemoteResp
deriving DecidableEq, Repr

/-- Result of one run of the retry/poll primitive: the condition settled,
the condition surfaced a fatal error, or the time budget ran out. -/
inductive PollResult where
  | success : PollResult
  | fatal : String → PollResult
  | timeout : PollResult
deriving DecidableEq, Repr

/-- Modelled from the spec: the Retry/Poll Primitive (wait.Poll of
k8s.io/apimachinery, used by every client call site, is not under src).
The condition is a stream indexed by call number returning
(settled, error); the loop checks the error first, then settled, exactly
as the spec contract (a) success on settled, (b) abort on non-nil error,
(c) Timeout when the budget is exhausted.  The fuel argument is the
number of condition invocations still allowed; the second component of
the result is the total number of invocations made (the accumulator k
counts the calls already made). -/
def pollAux (cond : Nat → Bool × Option String) : Nat → Nat → PollResult × Nat
  | 0, k => (PollResult.timeout, k)
  | Nat.succ m, k =>
    match cond k with
    | (_, some e) => (PollResult.fatal e, k + 1)
    | (true, none) => (PollResult.success, k + 1)
    | (false, none) => pollAux cond m (k + 1)

/-- Modelled from the spec: wait.Poll interval timeout cond.  The interval
ticker fires at interval, 2*interval, ... and the timeout channel closes at
timeout, after which the condition is checked one final time, so the
condition is invoked floor(timeout/interval) + 1 times before a Timeout is
declared (at least floor(timeout/interval), as the spec states). -/
def poll (interval timeout : Nat) (cond : Nat → Bool × Option String) :
    PollResult × Nat :=
  pollAux cond (timeout / interval + 1) 0

/-- A timeout consumes the whole budget: every allowed invocation was made. -/
theorem pollAux_timeout_count (cond : Nat → Bool × Option String) :
    ∀ n k, (pollAux cond n k).1 = PollResult.timeout →
      (pollAux cond n k).2 = k + n := by
  intro n
  induction n with
  | zero => intro k _; simp [pollAux]
  | succ m ih =>
    intro k h
    rw [pollAux] at h ⊢
    cases hc : cond k with
    | mk b o =>
      cases o with
      | some e => simp [hc] at h
      | none =>
        cases b with
        | true => simp [hc] at h
        | false =>
          simp [hc] at h ⊢
          rw [ih (k + 1) h]
          omega

/-- If the first j calls (from index k) are transient and call k + j settles,
the poll succeeds after exactly k + j + 1 calls, provided the budget allows
call k + j. -/
theorem pollAux_success_of (cond : Nat → Bool × Option String) :
    ∀ n j k, j < n → (∀ i, i < j → cond (k + i) = (false, none)) →
      cond (k + j) = (true, none) →
      pollAux cond n k = (PollResult.success, k + j + 1) := by
  intro n
  induction n with
  | zero => intro j k h; omega
  | succ m ih =>
    intro j k hj htrans hset
    rw [pollAux]
    cases j with
    | zero =>
      simp at hset
      simp [hset]
    | succ j0 =>
      have h0 : cond k = (false, none) := by
        have := htrans 0 (Nat.succ_pos j0)
        simpa using this
      simp [h0]
      have htrans1 : ∀ i, i < j0 → cond (k + 1 + i) = (false, none) := by
        intro i hi
        have := htrans (i + 1) (by omega)
        have harg : k + (i + 1) = k + 1 + i := by omega
        rwa [harg] at this
      have hset1 : cond (k + 1 + j0) = (true, none) := by
        have harg : k + (j0 + 1) = k + 1 + j0 := by omega
        rwa [harg] at hset
      have := ih j0 (k + 1) (by omega) htrans1 hset1
      rw [this]
      have harg2 : k + 1 + j0 + 1 = k + (j0 + 1) + 1 := by omega
      rw [harg2]

/-- If the first j calls (from index k) are transient and call k + j reports
a non-nil error, the poll aborts with that error after exactly k + j + 1
calls, provided the budget allows call k + j. -/
theorem pollAux_fatal_of (cond : Nat → Bool × Option String) :
    ∀ n j k b e, j < n → (∀ i, i < j → cond (k + i) = (false, none)) →
      cond (k + j) = (b, some e) →
      pollAux cond n k = (PollResult.fatal e, k + j + 1) := by
  intro n
  induction n with
  | zero => intro j k b e h; omega
  | succ m ih =>
    intro j k b e hj htrans hfat
    rw [pollAux]
    cases j with
    | zero =>
      simp at hfat
      simp [hfat]
    | succ j0 =>
      have h0 : cond k = (false, none) := by
        have := htrans 0 (Nat.succ_pos j0)
        simpa using this
      simp [h0]
      have htrans1 : ∀ i, i < j0 → cond (k + 1 + i) = (false, none) := by
        intro i hi
        have := htrans (i + 1) (by omega)
        have harg : k + (i + 1) = k + 1 + i := by omega
        rwa [harg] at this
      have hfat1 : cond (k + 1 + j0) = (b, some e) := by
        have harg : k + (j0 + 1) = k + 1 + j0 := by omega
        rwa [harg] at hfat
      have := ih j0 (k + 1) b e (by omega) htrans1 hfat1
      rw [this]
      have harg2 : k + 1 + j0 + 1 = k + (j0 + 1) + 1 := by omega
      rw [harg2]

/-- A successful poll run ends on a call that returned (true, none): the
invocation count is j + 1 for the settling call index j, and no call past
j was made. -/
theorem pollAux_success_inv (cond : Nat → Bool × Option String) :
    ∀ n k, (pollAux cond n k).1 = PollResult.success →
      ∃ j, (pollAux cond n k).2 = j + 1 ∧ k ≤ j ∧ cond j = (true, none) := by
  intro n
  induction n with
  | zero => intro k h; simp [pollAux] at h
  | succ m ih =>
    intro k h
    rw [pollAux] at h ⊢
    cases hc : cond k with
    | mk b o =>
      cases o with
      | some e => simp [hc] at h
      | none =>
        cases b with
        | true =>
          refine ⟨k, by simp [hc], Nat.le_refl k, hc⟩
        | false =>
          simp [hc] at h ⊢
          obtain ⟨j, hj, hkj, hcj⟩ := ih (k + 1) h
          exact ⟨j, hj, by omega, hcj⟩

/-- C2: for interval I and timeout T with I < T, the poll primitive (1)
invokes its condition at least floor(T/I) times before returning Timeout,
(2) returns success as soon as the condition reports settled, making the
settling call its last invocation, and (3) returns the condition error as
soon as the condition reports a non-nil error, making that call its last
invocation. -/
theorem poll_primitive_contract (I T : Nat) (cond : Nat → Bool × Option String)
    (hI : 0 < I) (hIT : I < T) :
    ((poll I T cond).1 = PollResult.timeout → T / I ≤ (poll I T cond).2) ∧
    (∀ j, j ≤ T / I → (∀ i, i < j → cond i = (false, none)) →
      cond j = (true, none) → poll I T cond = (PollResult.success, j + 1)) ∧
    (∀ j b e, j ≤ T / I → (∀ i, i < j → cond i = (false, none)) →
      cond j = (b, some e) → poll I T cond = (PollResult.fatal e, j + 1)) := by
  refine ⟨?_, ?_, ?_⟩
  · intro h
    have := pollAux_timeout_count cond (T / I + 1) 0 h
    unfold poll
    omega
  · intro j hj htrans hset
    unfold poll
    have := pollAux_success_of cond (T / I + 1) j 0 (by omega)
      (by intro i hi; simpa using htrans i hi) (by simpa using hset)
    simpa using this
  · intro j b e hj htrans hfat
    unfold poll
    have := pollAux_fatal_of cond (T / I + 1) j 0 b e (by omega)
      (by intro i hi; simpa using htrans i hi) (by simpa using hfat)
    simpa using this

/-- Witness for C2: with interval 5 and timeout 60, a condition that settles
on its first call makes the poll succeed after exactly one invocation. -/
theorem poll_primitive_contract_witness :
    poll 5 60 (fun _ => (true, none)) = (PollResult.success, 1) :=
  (poll_primitive_contract 5 60 (fun _ => (true, none)) (by decide)
    (by decide)).2.1 0 (by decide) (fun i hi => absurd hi (Nat.not_lt_zero i))
    rfl

/-- C3: a condition that reports a transient conflict (false, none) on every
call before call index k and settles at call k yields overall success of the
poll whenever k * I < T: a conflict never causes early abort. -/
theorem conflict_never_aborts (I T k : Nat) (cond : Nat → Bool × Option String)
    (hI : 0 < I) (hk : k * I < T)
    (hconf : ∀ i, i < k → cond i = (false, none))
    (hset : cond k = (true, none)) :
    (poll I T cond).1 = PollResult.success := by
  have hkle : k ≤ T / I := (Nat.le_div_iff_mul_le hI).2 (Nat.le_of_lt hk)
  unfold poll
  have := pollAux_success_of cond (T / I + 1) k 0 (by omega)
    (by intro i hi; simpa using hconf i hi) (by simpa using hset)
  rw [this]

/-- Witness for C3: interval 5, timeout 60, two conflict responses followed
by success on the third call gives overall success. -/
theorem conflict_never_aborts_witness :
    (poll 5 60 (fun i => if i < 2 then (false, none) else (true, none))).1 =
      PollResult.success :=
  conflict_never_aborts 5 60 2 _ (by decide) (by decide)
    (by intro i hi; simp [hi]) (by simp)

/-- A candidate hardware class (nova flavor) as consumed by the matcher in
getMatchingFlavorFor: name, RAM in MB, disk size, logical CPU count. -/
structure Flavor where
  name : String
  ram : Int
  disk : Int
  vcpus : Int
deriving DecidableEq, Repr

/-- The three measured inventory fields getMatchingFlavorFor reads from the
node: Inventory.Memory.PhysicalMb, RootDisk.Size, Inventory.CPU.Count. -/
structure MeasuredInventory where
  physicalMb : Int
  rootDiskSize : Int
  cpuCount : Int
deriving DecidableEq, Repr

/-- Modelled from the spec: calcDelta (a repository helper not under src)
returns the relative delta of a candidate capacity against the measured
one, abs(candidate - measured) / candidate, here as an exact rational. -/
def calcDelta (candidate measured : Int) : ℚ :=
  |(candidate : ℚ) - (measured : ℚ)| / (candidate : ℚ)

/-- Running state of the matcher loop in getMatchingFlavorFor: the running
best deltas (initialised 0.1 / 0.2 / 0.1) and the name recorded so far
(also written to the node resource class field). -/
structure MatchState where
  ram : ℚ
  disk : ℚ
  cpu : ℚ
  name : String
  resourceClass : String
deriving DecidableEq, Repr

/-- Initial matcher state: ram 0.1, disk 0.2, cpu 0.1, no name recorded yet
(the Go string zero value). -/
def initMatchState : MatchState :=
  { ram := 1/10, disk := 2/10, cpu := 1/10, name := "", resourceClass := "" }

/-- One iteration of the flavor loop of getMatchingFlavorFor: evaluate the
RAM delta against the running best and skip the candidate if it exceeds it,
otherwise narrow the RAM best and do the same for disk, then CPU; a
candidate surviving all three checks has its name recorded as the result
and as the node resource class.  Note the running bests narrow as soon as
the corresponding check passes, even when a later check rejects the
candidate, exactly as in the Go loop. -/
def stepFlavor (inv : MeasuredInventory) (st : MatchState) (f : Flavor) :
    MatchState :=
  let dram := calcDelta f.ram inv.physicalMb
  if dram > st.ram then st
  else
    let st1 : MatchState := { st with ram := dram }
    let ddisk := calcDelta f.disk inv.rootDiskSize
    if ddisk > st1.disk then st1
    else
      let st2 : MatchState := { st1 with disk := ddisk }
      let dcpu := calcDelta f.vcpus inv.cpuCount
      if dcpu > st2.cpu then st2
      else { st2 with cpu := dcpu, name := f.name, resourceClass := f.name }

/-- Embedding of getMatchingFlavorFor: fold the loop body over the flavor
list in listing order, starting from the initial thresholds. -/
def getMatchingFlavorFor (inv : MeasuredInventory) (fs : List Flavor) :
    MatchState :=
  fs.foldl (stepFlavor inv) initMatchState

/-- The worked example of the spec: measured RAM 64000 MB, root disk 500,
16 CPUs. -/
def exampleInventory : MeasuredInventory :=
  { physicalMb := 64000, rootDiskSize := 500, cpuCount := 16 }

/-- Candidate A of the worked example. -/
def flavorA : Flavor := { name := "A", ram := 65000, disk := 520, vcpus := 16 }

/-- Candidate B of the worked example. -/
def flavorB : Flavor := { name := "B", ram := 64500, disk := 510, vcpus := 16 }

/-- C1: the nearest-fit matcher (1) rejects a candidate whose RAM delta
exceeds the running RAM best, leaving the state unchanged (disk and CPU are
not consulted); (2) if RAM passes but the disk delta exceeds the running
disk best, only the RAM best is narrowed; (3) if RAM and disk pass but the
CPU delta exceeds the running CPU best, the RAM and disk bests are
narrowed; (4) a candidate passing all three checks, in the order RAM then
disk then CPU, narrows all three bests and records its name as the node
resource class; (5) a later candidate whose three deltas equal those of an
accepted earlier candidate is itself accepted and overwrites the record, so
among equally good candidates the last in scan order wins; and (6) on the
spec worked example the matcher selects B. -/
theorem nearest_fit_matcher :
    (∀ inv st f, calcDelta f.ram inv.physicalMb > st.ram →
      stepFlavor inv st f = st) ∧
    (∀ inv st f, calcDelta f.ram inv.physicalMb ≤ st.ram →
      calcDelta f.disk inv.rootDiskSize > st.disk →
      stepFlavor inv st f = { st with ram := calcDelta f.ram inv.physicalMb }) ∧
    (∀ inv st f, calcDelta f.ram inv.physicalMb ≤ st.ram →
      calcDelta f.disk inv.rootDiskSize ≤ st.disk →
      calcDelta f.vcpus inv.cpuCount > st.cpu →
      stepFlavor inv st f = { st with
        ram := calcDelta f.ram inv.physicalMb
        disk := calcDelta f.disk inv.rootDiskSize }) ∧
    (∀ inv st f, calcDelta f.ram inv.physicalMb ≤ st.ram →
      calcDelta f.disk inv.rootDiskSize ≤ st.disk →
      calcDelta f.vcpus inv.cpuCount ≤ st.cpu →
      stepFlavor inv st f = {
        ram := calcDelta f.ram inv.physicalMb
        disk := calcDelta f.disk inv.rootDiskSize
        cpu := calcDelta f.vcpus inv.cpuCount
        name := f.name
        resourceClass := f.name }) ∧
    (∀ inv st f g, calcDelta f.ram inv.physicalMb ≤ st.ram →
      calcDelta f.disk inv.rootDiskSize ≤ st.disk →
      calcDelta f.vcpus inv.cpuCount ≤ st.cpu →
      calcDelta g.ram inv.physicalMb = calcDelta f.ram inv.physicalMb →
      calcDelta g.disk inv.rootDiskSize = calcDelta f.disk inv.rootDiskSize →
      calcDelta g.vcpus inv.cpuCount = calcDelta f.vcpus inv.cpuCount →
      (stepFlavor inv (stepFlavor inv st f) g).resourceClass = g.name) ∧
    ((getMatchingFlavorFor exampleInventory [flavorA, flavorB]).resourceClass
      = "B") := by
  have hreject : ∀ inv st f, calcDelta f.ram inv.physicalMb > st.ram →
      stepFlavor inv st f = st := by
    intro inv st f h
    simp only [stepFlavor]
    rw [if_pos h]
  have hdisk : ∀ inv st f, calcDelta f.ram inv.physicalMb ≤ st.ram →
      calcDelta f.disk inv.rootDiskSize > st.disk →
      stepFlavor inv st f = { st with ram := calcDelta f.ram inv.physicalMb } := by
    intro inv st f h1 h2
    simp only [stepFlavor]
    rw [if_neg (not_lt.2 h1), if_pos h2]
  have hcpu : ∀ inv st f, calcDelta f.ram inv.physicalMb ≤ st.ram →
      calcDelta f.disk inv.rootDiskSize ≤ st.disk →
      calcDelta f.vcpus inv.cpuCount > st.cpu →
      stepFlavor inv st f = { st with
        ram := calcDelta f.ram inv.physicalMb
        disk := calcDelta f.disk inv.rootDiskSize } := by
    intro inv st f h1 h2 h3
    simp only [stepFlavor]
    rw [if_neg (not_lt.2 h1), if_neg (not_lt.2 h2), if_pos h3]
  have haccept : ∀ inv st f, calcDelta f.ram inv.physicalMb ≤ st.ram →
      calcDelta f.disk inv.rootDiskSize ≤ st.disk →
      calcDelta f.vcpus inv.cpuCount ≤ st.cpu →
      stepFlavor inv st f = {
        ram := calcDelta f.ram inv.physicalMb
        disk := calcDelta f.disk inv.rootDiskSize
        cpu := calcDelta f.vcpus inv.cpuCount
        name := f.name
        resourceClass := f.name } := by
    intro inv st f h1 h2 h3
    simp only [stepFlavor]
    rw [if_neg (not_lt.2 h1), if_neg (not_lt.2 h2), if_neg (not_lt.2 h3)]
  refine ⟨hreject, hdisk, hcpu, haccept, ?_, ?_⟩
  · intro inv st f g h1 h2 h3 e1 e2 e3
    rw [haccept inv st f h1 h2 h3]
    rw [haccept inv _ g (by rw [e1]) (by rw [e2]) (by rw [e3])]
  · show (stepFlavor exampleInventory
      (stepFlavor exampleInventory initMatchState flavorA) flavorB).resourceClass = "B"
    have hA : stepFlavor exampleInventory initMatchState flavorA =
        { ram := 1/65, disk := 1/26, cpu := 0, name := "A", resourceClass := "A" } := by
      rw [haccept]
      · have e1 : calcDelta flavorA.ram exampleInventory.physicalMb = 1/65 := by
          simp [calcDelta, flavorA, exampleInventory]
          norm_num
        have e2 : calcDelta flavorA.disk exampleInventory.rootDiskSize = 1/26 := by
          simp [calcDelta, flavorA, exampleInventory]
          norm_num
        have e3 : calcDelta flavorA.vcpus exampleInventory.cpuCount = 0 := by
          simp [calcDelta, flavorA, exampleInventory]
        rw [e1, e2, e3]
        simp [flavorA]
      · simp [calcDelta, flavorA, exampleInventory, initMatchState]
        norm_num
      · simp [calcDelta, flavorA, exampleInventory, initMatchState]
        norm_num
      · simp [calcDelta, flavorA, exampleInventory, initMatchState]
    rw [hA, haccept]
    · simp [flavorB]
    · simp [calcDelta, flavorB, exampleInventory]
      norm_num
    · simp [calcDelta, flavorB, exampleInventory]
      norm_num
    · simp [calcDelta, flavorB, exampleInventory]

/-- Witness for C1: a candidate whose RAM is twice the measured RAM (delta
one half, above the initial 0.1 threshold) is rejected and leaves the
initial state unchanged. -/
theorem nearest_fit_matcher_witness :
    stepFlavor { physicalMb := 100, rootDiskSize := 100, cpuCount := 4 }
      initMatchState { name := "X", ram := 200, disk := 100, vcpus := 4 } =
      initMatchState :=
  nearest_fit_matcher.1 _ _ _
    (by simp [calcDelta, initMatchState]; norm_num)

/-- Result of running a Go function that can panic: either it returns a
value (for the embedded functions: the returned error, none meaning nil,
together with the node state) or it panics (index out of range). -/
inductive GoResult (α : Type) where
  | returns : α → GoResult α
  | panics : GoResult α
deriving DecidableEq, Repr

/-- Embedding of Go strings.Split with a one-character separator, on
character lists: splitting always yields at least one piece; each
occurrence of the separator starts a new piece. -/
def splitChars (sep : Char) : List Char → List (List Char)
  | [] => [[]]
  | c :: cs =>
    let ps := splitChars sep cs
    if c = sep then [] :: ps
    else
      match ps with
      | p :: rest => (c :: p) :: rest
      | [] => [[c]]

/-- Embedding of strings.Split(s, "-") as used on node names. -/
def splitOnDash (s : String) : List String :=
  (splitChars (Char.ofNat 45) s.data).map (fun l => String.mk l)

/-- Splitting never yields the empty list. -/
theorem splitChars_ne_nil (sep : Char) : ∀ l, splitChars sep l ≠ [] := by
  intro l
  induction l with
  | nil => simp [splitChars]
  | cons c cs ih =>
    rw [splitChars]
    by_cases h : c = sep
    · simp [h]
    · simp only [if_neg h]
      cases hps : splitChars sep cs with
      | nil => simp
      | cons p rest => simp

/-- If the separator occurs in the list, the split has at least two pieces. -/
theorem two_le_length_splitChars (sep : Char) :
    ∀ l, sep ∈ l → 2 ≤ (splitChars sep l).length := by
  intro l
  induction l with
  | nil => intro h; simp at h
  | cons c cs ih =>
    intro hmem
    rw [splitChars]
    by_cases h : c = sep
    · simp only [if_pos h, List.length_cons]
      have := splitChars_ne_nil sep cs
      have : 1 ≤ (splitChars sep cs).length := by
        cases hps : splitChars sep cs with
        | nil => exact absurd hps this
        | cons p rest => simp
      omega
    · simp only [if_neg h]
      have hcs : sep ∈ cs := by
        rcases List.mem_cons.1 hmem with h1 | h1
        · exact absurd h1.symm h
        · exact h1
      have h2 := ih hcs
      cases hps : splitChars sep cs with
      | nil => exact absurd hps (splitChars_ne_nil sep cs)
      | cons p rest =>
        rw [hps] at h2
        simpa using h2

/-- If the separator does not occur in the list, the split is a single
piece. -/
theorem length_splitChars_of_not_mem (sep : Char) :
    ∀ l, sep ∉ l → (splitChars sep l).length = 1 := by
  intro l
  induction l with
  | nil => intro _; simp [splitChars]
  | cons c cs ih =>
    intro hmem
    rw [splitChars]
    have hc : ¬ c = sep := fun h => hmem (by simp [h])
    have hcs : sep ∉ cs := fun h => hmem (List.mem_cons_of_mem c h)
    simp only [if_neg hc]
    have h1 := ih hcs
    cases hps : splitChars sep cs with
    | nil => exact absurd hps (splitChars_ne_nil sep cs)
    | cons p rest =>
      rw [hps] at h1
      simpa using h1

/-- Modelled from the spec: model.IronicNode (pkg/model is not under src).
The fields are those the embedded client code reads and writes: identifier,
display name, DNS host, IP, resource class, and the transient test workload
fields (instance identifier and address). -/
structure IronicNode where
  uuid : String
  name : String
  host : String
  ip : String
  resourceClass : String
  instanceUUID : String
  instanceIPv4 : String
deriving DecidableEq, Repr

/-- Outcome of the remote recordsets.Create call as CreateDNSRecordFor
distinguishes it: success, a gophercloud ErrDefault409 carrying its actual
status code and message, or any other error. -/
inductive DnsCreateResult where
  | ok : DnsCreateResult
  | conflict : Nat → String → DnsCreateResult
  | failed : String → DnsCreateResult
deriving DecidableEq, Repr

/-- Embedding of CreateDNSRecordFor: list the DNS zones (a listing error is
surfaced; an empty zone list fails with a wrong-dns-zone error), split the
node name on dashes, guard on fewer than one piece (wrong node name), build
the record name from pieces 0 and 1 (a Go index-out-of-range panic when
piece 1 is missing), store it in the node host field, then create the
record: an ErrDefault409 whose actual code is 409 means the record already
exists and is treated as success; any other error is returned. -/
def CreateDNSRecordFor (zonesResult : Except String (List String))
    (create : String → DnsCreateResult) (domain : String) (n : IronicNode) :
    GoResult (Option String × IronicNode) :=
  match zonesResult with
  | Except.error e => GoResult.returns (some e, n)
  | Except.ok allZones =>
    if allZones.length = 0 then GoResult.returns (some "wrong dns zone", n)
    else
      let na := splitOnDash n.name
      if na.length < 1 then GoResult.returns (some "wrong node name", n)
      else
        match na with
        | na0 :: na1 :: _ =>
          let rname := na0 ++ "r-" ++ na1
          let recordName := rname ++ "." ++ domain ++ "."
          let n1 := { n with host := recordName }
          match create recordName with
          | DnsCreateResult.ok => GoResult.returns (none, n1)
          | DnsCreateResult.conflict actual msg =>
            if actual = 409 then GoResult.returns (none, n1)
            else GoResult.returns (some msg, n1)
          | DnsCreateResult.failed msg => GoResult.returns (some msg, n1)
        | _ => GoResult.panics

/-- One sub-result of the baremetal validate api: a boolean outcome and a
reason. -/
structure SubResult where
  result : Bool
  reason : String
deriving DecidableEq, Repr

/-- The four named sub-results of the validate api, in the order
ValidateNode checks them: inspect, power, management, network. -/
structure NodeValidation where
  inspect : SubResult
  power : SubResult
  management : SubResult
  network : SubResult
deriving DecidableEq, Repr

/-- Embedding of ValidateNode: surface the api error when the validate call
itself fails; otherwise fail with the reason of the first negative
sub-result in the order inspect, power, management, network, and succeed
(none) when all four are positive. -/
def ValidateNode (v : Except String NodeValidation) : Option String :=
  match v with
  | Except.error e => some e
  | Except.ok v =>
    if !v.inspect.result then some v.inspect.reason
    else if !v.power.result then some v.power.reason
    else if !v.management.result then some v.management.reason
    else if !v.network.result then some v.network.reason
    else none

/-- Embedding of DeleteTestInstance: force-delete the test instance (abort
with the error when that fails), then wait for status DELETED and return
that wait's outcome.  The Go function never writes to any field of the
node, so the node is returned unchanged on every path. -/
def DeleteTestInstance (forceDeleteErr waitErr : Option String)
    (n : IronicNode) : Option String × IronicNode :=
  match forceDeleteErr with
  | some e => (some e, n)
  | none => (waitErr, n)

/-- Embedding of the condition closure of updateNode: it maps EVERY error
— conflict or not — to (false, none), i.e. transient retry, and success to
(true, none).  The stream gives the error of each nodes.Update attempt
(none meaning the attempt succeeded). -/
def retryAllCond (results : Nat → Option String) (i : Nat) :
    Bool × Option String :=
  match results i with
  | some _ => (false, none)
  | none => (true, none)

/-- Embedding of updateNode: the retry-everything condition polled at
interval 5 with timeout 60. -/
def updateNode (results : Nat → Option String) : PollResult × Nat :=
  poll 5 60 (retryAllCond results)

/-- Embedding of the conflict-absorbing condition shared by the per-port
closure of updatePorts and the provision transition closure of ProvideNode:
a gophercloud ErrDefault409 (node is locked) is reported transient
(false, none); any other error aborts the poll with that error; success
settles. -/
def conflictAbsorbCond (results : Nat → RemoteResp) (i : Nat) :
    Bool × Option String :=
  match results i with
  | RemoteResp.ok => (true, none)
  | RemoteResp.conflict409 => (false, none)
  | RemoteResp.otherErr msg => (true, some msg)

/-- Embedding of one port update of updatePorts: the conflict-absorbing
condition polled at interval 5 with timeout 60. -/
def updatePortPoll (results : Nat → RemoteResp) : PollResult × Nat :=
  poll 5 60 (conflictAbsorbCond results)

/-- Loop of updatePorts over the node ports: each port is polled in turn
and the first poll that does not succeed aborts the loop.  The accumulator
counts the ports whose update was attempted. -/
def updatePortsAux : List (Nat → RemoteResp) → Nat → PollResult × Nat
  | [], k => (PollResult.success, k)
  | r :: rest, k =>
    match (updatePortPoll r).1 with
    | PollResult.success => updatePortsAux rest (k + 1)
    | res => (res, k + 1)

/-- Embedding of updatePorts: run the per-port polls in listing order,
aborting at the first port whose poll fails; the second component is the
number of ports attempted. -/
def updatePorts (portResults : List (Nat → RemoteResp)) : PollResult × Nat :=
  updatePortsAux portResults 0

/-- One patch operation of nodes.UpdateOpts as built by PrepareNode. -/
structure UpdateOperation where
  op : String
  path : String
  value : String
deriving DecidableEq, Repr

/-- The conductor group replace operation of PrepareNode. -/
def conductorGroupOp (conductor : String) : UpdateOperation :=
  { op := "replace"
    path := "/conductor_group"
    value := conductor }

/-- The maintenance replace operation of PrepareNode. -/
def maintenanceOp : UpdateOperation :=
  { op := "replace"
    path := "/maintenance"
    value := "true" }

/-- Embedding of PrepareNode: take the second dash-separated piece of the
node name as the conductor group — an unguarded index that panics when the
name has no dash — and patch the node with the two replace operations via
updateNode. -/
def PrepareNode (updateResults : Nat → Option String) (n : IronicNode) :
    GoResult (List UpdateOperation × (PollResult × Nat)) :=
  match splitOnDash n.name with
  | _ :: conductor :: _ =>
    GoResult.returns
      ([conductorGroupOp conductor, maintenanceOp], updateNode updateResults)
  | _ => GoResult.panics

/-- Behaviour of the remote control plane during ProvideNode: per-attempt
outcomes of the manage transition and the provide transition, and the
provision state (or error) reported by each nodes.Get of the final poll. -/
structure ProvideEnv where
  manage : Nat → RemoteResp
  provide : Nat → RemoteResp
  getState : Nat → Except String String

/-- Embedding of the final polling condition cfp of ProvideNode: a Get
error aborts the poll; a provision state other than available is reported
transient; the available state settles. -/
def availableCond (getState : Nat → Except String String) (i : Nat) :
    Bool × Option String :=
  match getState i with
  | Except.error e => (true, some e)
  | Except.ok st => if st = "available" then (true, none) else (false, none)

/-- Embedding of ProvideNode: poll the manage provision transition
(interval 5, timeout 30) through the conflict-absorbing condition; only if
it succeeded, poll the provide transition the same way; only if that also
succeeded, poll the reported provision state until it is available.  The
overall result is the first non-success poll result, or the final poll's
result; the triple records how many condition invocations each phase made,
zero meaning the phase was never started. -/
def ProvideNode (env : ProvideEnv) : PollResult × (Nat × Nat × Nat) :=
  let m := poll 5 30 (conflictAbsorbCond env.manage)
  match m.1 with
  | PollResult.success =>
    let p := poll 5 30 (conflictAbsorbCond env.provide)
    match p.1 with
    | PollResult.success =>
      let g := poll 5 30 (availableCond env.getState)
      (g.1, (m.2, p.2, g.2))
    | pr => (pr, (m.2, p.2, 0))
  | mr => (mr, (m.2, 0, 0))

/-- A pipeline failure as the compensation handler receives it: a
SchedulerError carrying the failed node and reason, or any other error. -/
inductive TemperError where
  | scheduler : IronicNode → String → TemperError
  | generic : String → TemperError
deriving DecidableEq, Repr

/-- Observable action of the compensation handler: log a failure with node
identity and reason, issue a test workload teardown, or log a generic
error. -/
inductive HandlerAction where
  | logFailure : String → String → HandlerAction
  | teardown : String → HandlerAction
  | logGeneric : String → HandlerAction
deriving DecidableEq, Repr

/-- Handling of one received failure by the handler body: a SchedulerError
is logged with node identity and reason and, when the node carries a live
test workload (non-empty instance identifier), a teardown of that workload
is issued — DeleteNodeTestDeployment, modelled from the spec (its body is
not under src) as an action whose own outcome is ignored; any other error
is logged generically. -/
def handleOne (e : TemperError) : List HandlerAction :=
  match e with
  | TemperError.scheduler n msg =>
    if n.instanceUUID ≠ "" then
      [HandlerAction.logFailure n.uuid msg, HandlerAction.teardown n.instanceUUID]
    else
      [HandlerAction.logFailure n.uuid msg]
  | TemperError.generic msg => [HandlerAction.logGeneric msg]

/-- Embedding of initHandler: the handler goroutine executes a single
select statement — it consumes the first failure delivered before the
cancellation signal (if any), handles it, and returns.  The argument is
the queue of failures delivered before cancellation; later failures are
never consumed. -/
def initHandler (pending : List TemperError) : List HandlerAction :=
  match pending with
  | [] => []
  | e :: _ => handleOne e

/-- A condition that is transient on every call exhausts the whole budget
and times out. -/
theorem pollAux_all_transient (cond : Nat → Bool × Option String)
    (h : ∀ i, cond i = (false, none)) :
    ∀ n k, pollAux cond n k = (PollResult.timeout, k + n) := by
  intro n
  induction n with
  | zero => intro k; simp [pollAux]
  | succ m ih =>
    intro k
    rw [pollAux]
    simp only [h k]
    rw [ih (k + 1)]
    have harg : k + 1 + m = k + (m + 1) := by omega
    rw [harg]

/-- C4: with a reachable non-empty zone list and a hyphenated node name,
DNS registration treats an already-existing record (a 409 from the remote
create) exactly like a fresh creation — it succeeds with the same node
update, so creating the same record twice yields no error — while any
other error from the create call makes the step fail with that error. -/
theorem dns_create_idempotent
    (zs : List String) (domain : String) (n : IronicNode)
    (hz : zs ≠ []) (h2 : 2 ≤ (splitOnDash n.name).length) :
    (∀ msg, CreateDNSRecordFor (Except.ok zs)
        (fun _ => DnsCreateResult.conflict 409 msg) domain n =
      CreateDNSRecordFor (Except.ok zs) (fun _ => DnsCreateResult.ok) domain n) ∧
    (∃ n1, CreateDNSRecordFor (Except.ok zs)
        (fun _ => DnsCreateResult.ok) domain n = GoResult.returns (none, n1)) ∧
    (∀ msg, ∃ n1, CreateDNSRecordFor (Except.ok zs)
        (fun _ => DnsCreateResult.failed msg) domain n =
      GoResult.returns (some msg, n1)) ∧
    (∀ code msg, code ≠ 409 → ∃ n1, CreateDNSRecordFor (Except.ok zs)
        (fun _ => DnsCreateResult.conflict code msg) domain n =
      GoResult.returns (some msg, n1)) := by
  obtain ⟨na0, na1, narest, hna⟩ :
      ∃ a b rest, splitOnDash n.name = a :: b :: rest := by
    rcases hsp : splitOnDash n.name with _ | ⟨a, _ | ⟨b, rest⟩⟩
    · rw [hsp] at h2; simp at h2
    · rw [hsp] at h2; simp at h2
    · exact ⟨a, b, rest, rfl⟩
  have hzl : ¬ (zs.length = 0) := by
    simpa [List.length_eq_zero] using hz
  refine ⟨?_, ?_, ?_, ?_⟩
  · intro msg
    simp [CreateDNSRecordFor, hna, hzl]
  · refine ⟨{ n with host := na0 ++ "r-" ++ na1 ++ "." ++ domain ++ "." }, ?_⟩
    simp [CreateDNSRecordFor, hna, hzl]
  · intro msg
    refine ⟨{ n with host := na0 ++ "r-" ++ na1 ++ "." ++ domain ++ "." }, ?_⟩
    simp [CreateDNSRecordFor, hna, hzl]
  · intro code msg hcode
    refine ⟨{ n with host := na0 ++ "r-" ++ na1 ++ "." ++ domain ++ "." }, ?_⟩
    simp [CreateDNSRecordFor, hna, hzl, hcode]

/-- Witness for C4: one zone, node name with a dash; creating against a
remote that reports the record as already existing gives the same outcome
as creating it fresh. -/
theorem dns_create_idempotent_witness :
    CreateDNSRecordFor (Except.ok ["zone-1"])
      (fun _ => DnsCreateResult.conflict 409 "record exists") "example.net"
      { uuid := "u"
        name := "node001-bb"
        host := ""
        ip := "10.0.0.7"
        resourceClass := ""
        instanceUUID := ""
        instanceIPv4 := "" } =
    CreateDNSRecordFor (Except.ok ["zone-1"])
      (fun _ => DnsCreateResult.ok) "example.net"
      { uuid := "u"
        name := "node001-bb"
        host := ""
        ip := "10.0.0.7"
        resourceClass := ""
        instanceUUID := ""
        instanceIPv4 := "" } :=
  (dns_create_idempotent ["zone-1"] "example.net" _ (by decide)
    (by decide)).1 "record exists"

/-- C5: the Validated step succeeds exactly when all four sub-results are
positive, and otherwise fails with the reason of the first negative
sub-result in the order inspect, power, management, network. -/
theorem validated_first_failing_reason (v : NodeValidation) :
    (ValidateNode (Except.ok v) = none ↔
      (v.inspect.result = true ∧ v.power.result = true ∧
        v.management.result = true ∧ v.network.result = true)) ∧
    (v.inspect.result = false →
      ValidateNode (Except.ok v) = some v.inspect.reason) ∧
    (v.inspect.result = true → v.power.result = false →
      ValidateNode (Except.ok v) = some v.power.reason) ∧
    (v.inspect.result = true → v.power.result = true →
      v.management.result = false →
      ValidateNode (Except.ok v) = some v.management.reason) ∧
    (v.inspect.result = true → v.power.result = true →
      v.management.result = true → v.network.result = false →
      ValidateNode (Except.ok v) = some v.network.reason) := by
  rcases v with ⟨⟨i, ir⟩, ⟨p, pr⟩, ⟨m, mr⟩, ⟨w, wr⟩⟩
  cases i <;> cases p <;> cases m <;> cases w <;> simp [ValidateNode]

/-- Witness for C5: a validation whose power sub-result is the first
negative one fails with the power reason. -/
theorem validated_first_failing_reason_witness :
    ValidateNode (Except.ok
      { inspect := { result := true
                     reason := "" }
        power := { result := false
                   reason := "power interface missing" }
        management := { result := true
                        reason := "" }
        network := { result := false
                     reason := "network interface missing" } }) =
      some "power interface missing" :=
  (validated_first_failing_reason _).2.2.1 rfl rfl

/-- The node used in concrete counterexamples: it carries a live test
workload (non-empty instance identifier and address). -/
def exampleNode : IronicNode :=
  { uuid := "node-uuid-1"
    name := "node001-bb123"
    host := ""
    ip := "10.0.0.7"
    resourceClass := ""
    instanceUUID := "inst-42"
    instanceIPv4 := "10.0.0.99" }

/-- C6 counterexample: a successful teardown does NOT clear the transient
workload fields — DeleteTestInstance returns no error yet the node still
carries its workload identifier. -/
theorem teardown_leaves_workload_fields :
    (DeleteTestInstance none none exampleNode).1 = none ∧
    (DeleteTestInstance none none exampleNode).2.instanceUUID = "inst-42" ∧
    ¬ ((DeleteTestInstance none none exampleNode).2.instanceUUID = "") := by
  refine ⟨rfl, rfl, by decide⟩

/-- C6 amended: the teardown step modifies no field of the node at all:
whether the force-delete or the deletion wait succeeds or fails, the node
is returned unchanged, so in particular the transient workload fields are
not cleared by this step. -/
theorem teardown_frame (forceDeleteErr waitErr : Option String)
    (n : IronicNode) :
    (DeleteTestInstance forceDeleteErr waitErr n).2 = n := by
  cases forceDeleteErr <;> rfl

/-- C7 counterexample: a node-resource update that fails on every attempt
with a generic (non-conflict) error does NOT abort with that error after
one attempt — updateNode classifies every error as transient, so it makes
all 13 attempts the 60/5 poll budget allows and surfaces a Timeout,
losing the original error. -/
theorem node_update_swallows_generic_errors :
    updateNode (fun _ => some "bad request") = (PollResult.timeout, 13) ∧
    ¬ (updateNode (fun _ => some "bad request") =
      (PollResult.fatal "bad request", 1)) := by
  refine ⟨rfl, by decide⟩

/-- C7 amended: during rule application only the port updates follow the
claimed semantics — a port update poll aborts on the first non-conflict
error with that error after retrying only conflicts, and the port loop
attempts no later port after such an abort — while the node-resource
update retries EVERY error as if transient until its poll times out. -/
theorem rules_update_retry_semantics :
    (∀ results j msg, j ≤ 12 →
      (∀ i, i < j → results i = RemoteResp.conflict409) →
      results j = RemoteResp.otherErr msg →
      updatePortPoll results = (PollResult.fatal msg, j + 1)) ∧
    (∀ r rest e, (updatePortPoll r).1 = PollResult.fatal e →
      updatePorts (r :: rest) = (PollResult.fatal e, 1)) ∧
    (∀ results, (∀ i, results i ≠ none) →
      updateNode results = (PollResult.timeout, 13)) := by
  refine ⟨?_, ?_, ?_⟩
  · intro results j msg hj htrans hfat
    have hc : ∀ i, i < j →
        conflictAbsorbCond results (0 + i) = (false, none) := by
      intro i hi
      simp only [Nat.zero_add, conflictAbsorbCond, htrans i hi]
    have hf : conflictAbsorbCond results (0 + j) = (true, some msg) := by
      simp only [Nat.zero_add, conflictAbsorbCond, hfat]
    unfold updatePortPoll poll
    have := pollAux_fatal_of (conflictAbsorbCond results) (60 / 5 + 1) j 0
      true msg (by omega) hc hf
    simpa using this
  · intro r rest e h
    simp [updatePorts, updatePortsAux, h]
  · intro results h
    have hc : ∀ i, retryAllCond results i = (false, none) := by
      intro i
      cases hri : results i with
      | none => exact absurd hri (h i)
      | some e => simp [retryAllCond, hri]
    unfold updateNode poll
    rw [pollAux_all_transient _ hc]

/-- Witness for C7 amended: a single port whose first update attempt
returns a generic error makes the ports step abort at once with that
error, with exactly one port attempted. -/
theorem rules_update_retry_semantics_witness :
    updatePorts [fun _ => RemoteResp.otherErr "bad request"] =
      (PollResult.fatal "bad request", 1) :=
  rules_update_retry_semantics.2.1 (fun _ => RemoteResp.otherErr "bad request")
    [] "bad request" rfl

/-- C9: the Provisioned step (1) returns success only when its final poll
observed the provision state available on its last Get; (2) when the
manage poll does not succeed, the provide transition and the state poll
are never attempted (their invocation counts are zero) and the manage
outcome is the step's outcome; (3) when manage succeeded but the provide
poll does not, the state poll is never attempted; (4) a conflict response
is reported transient by the transition condition, never an abort; and
(5) a transition whose attempts are conflicts until attempt j and then
succeed makes its poll succeed after j + 1 attempts — each transition is
retried individually on conflicts. -/
theorem provide_node_contract (env : ProvideEnv) :
    ((ProvideNode env).1 = PollResult.success →
      ∃ j, (ProvideNode env).2.2.2 = j + 1 ∧
        env.getState j = Except.ok "available") ∧
    (∀ r, r ≠ PollResult.success →
      (poll 5 30 (conflictAbsorbCond env.manage)).1 = r →
      ProvideNode env =
        (r, ((poll 5 30 (conflictAbsorbCond env.manage)).2, 0, 0))) ∧
    ((poll 5 30 (conflictAbsorbCond env.manage)).1 = PollResult.success →
      ∀ r, r ≠ PollResult.success →
      (poll 5 30 (conflictAbsorbCond env.provide)).1 = r →
      ProvideNode env =
        (r, ((poll 5 30 (conflictAbsorbCond env.manage)).2,
          (poll 5 30 (conflictAbsorbCond env.provide)).2, 0))) ∧
    (∀ s : Nat → RemoteResp, ∀ i, s i = RemoteResp.conflict409 →
      conflictAbsorbCond s i = (false, none)) ∧
    (∀ s : Nat → RemoteResp, ∀ j, j ≤ 6 →
      (∀ i, i < j → s i = RemoteResp.conflict409) → s j = RemoteResp.ok →
      poll 5 30 (conflictAbsorbCond s) = (PollResult.success, j + 1)) := by
  refine ⟨?_, ?_, ?_, ?_, ?_⟩
  · intro hs
    cases hm : (poll 5 30 (conflictAbsorbCond env.manage)).1 with
    | fatal e => simp [ProvideNode, hm] at hs
    | timeout => simp [ProvideNode, hm] at hs
    | success =>
      cases hp : (poll 5 30 (conflictAbsorbCond env.provide)).1 with
      | fatal e => simp [ProvideNode, hm, hp] at hs
      | timeout => simp [ProvideNode, hm, hp] at hs
      | success =>
        have hP : ProvideNode env =
            ((poll 5 30 (availableCond env.getState)).1,
              ((poll 5 30 (conflictAbsorbCond env.manage)).2,
                (poll 5 30 (conflictAbsorbCond env.provide)).2,
                (poll 5 30 (availableCond env.getState)).2)) := by
          simp [ProvideNode, hm, hp]
        rw [hP] at hs
        simp only at hs
        obtain ⟨j, hcount, hkj, hcj⟩ :=
          pollAux_success_inv (availableCond env.getState) (30 / 5 + 1) 0 hs
        refine ⟨j, ?_, ?_⟩
        · rw [hP]
          simpa [poll] using hcount
        · unfold availableCond at hcj
          cases hg : env.getState j with
          | error e => rw [hg] at hcj; simp at hcj
          | ok st =>
            rw [hg] at hcj
            by_cases hst : st = "available"
            · rw [hst]
            · simp [hst] at hcj
  · intro r hr hm
    cases r with
    | success => exact absurd rfl hr
    | fatal e => simp [ProvideNode, hm]
    | timeout => simp [ProvideNode, hm]
  · intro hm r hr hp
    cases r with
    | success => exact absurd rfl hr
    | fatal e => simp [ProvideNode, hm, hp]
    | timeout => simp [ProvideNode, hm, hp]
  · intro s i h
    simp [conflictAbsorbCond, h]
  · intro s j hj htrans hok
    have hc : ∀ i, i < j → conflictAbsorbCond s (0 + i) = (false, none) := by
      intro i hi
      simp only [Nat.zero_add, conflictAbsorbCond, htrans i hi]
    have hset : conflictAbsorbCond s (0 + j) = (true, none) := by
      simp only [Nat.zero_add, conflictAbsorbCond, hok]
    unfold poll
    have := pollAux_success_of (conflictAbsorbCond s) (30 / 5 + 1) j 0
      (by omega) hc hset
    simpa using this

/-- The control-plane behaviour used as the concrete provisioning witness:
the manage transition is locked once then accepted, the provide transition
is accepted at once, and the node reports available on the first Get. -/
def exampleProvideEnv : ProvideEnv :=
  { manage := fun i => if i = 0 then RemoteResp.conflict409 else RemoteResp.ok
    provide := fun _ => RemoteResp.ok
    getState := fun _ => Except.ok "available" }

/-- Witness for C9: on the concrete environment the step succeeds and its
final poll observed the available state on its last Get. -/
theorem provide_node_contract_witness :
    ∃ j, (ProvideNode exampleProvideEnv).2.2.2 = j + 1 ∧
      exampleProvideEnv.getState j = Except.ok "available" :=
  (provide_node_contract exampleProvideEnv).1 rfl

/-- C10: node name splitting (1) always yields at least one piece, so the
guard on fewer than one piece in CreateDNSRecordFor can never fire; (2) a
name containing a dash splits into at least two pieces, making both the
DNS registration name construction and the PrepareNode conductor lookup
total (no panic); (3) a name without a dash splits into exactly one piece,
and on such a name PrepareNode's unguarded index 1 panics; concretely the
name consisting of the four characters n, o, d, e splits into one piece. -/
theorem node_name_split_guard :
    (∀ s : String, ¬ ((splitOnDash s).length < 1)) ∧
    (∀ s : String, Char.ofNat 45 ∈ s.data → 2 ≤ (splitOnDash s).length) ∧
    (∀ s : String, Char.ofNat 45 ∉ s.data → (splitOnDash s).length = 1) ∧
    (∀ zonesResult create domain n, Char.ofNat 45 ∈ (IronicNode.name n).data →
      CreateDNSRecordFor zonesResult create domain n ≠ GoResult.panics) ∧
    (∀ updateResults n, Char.ofNat 45 ∈ (IronicNode.name n).data →
      PrepareNode updateResults n ≠ GoResult.panics) ∧
    (∀ updateResults n, Char.ofNat 45 ∉ (IronicNode.name n).data →
      PrepareNode updateResults n = GoResult.panics) ∧
    (splitOnDash "node").length = 1 := by
  have hge1 : ∀ s : String, 1 ≤ (splitOnDash s).length := by
    intro s
    unfold splitOnDash
    rw [List.length_map]
    cases hps : splitChars (Char.ofNat 45) s.data with
    | nil => exact absurd hps (splitChars_ne_nil _ s.data)
    | cons p rest => simp
  have hmem : ∀ s : String, Char.ofNat 45 ∈ s.data →
      2 ≤ (splitOnDash s).length := by
    intro s hs
    unfold splitOnDash
    rw [List.length_map]
    exact two_le_length_splitChars _ s.data hs
  have hnotmem : ∀ s : String, Char.ofNat 45 ∉ s.data →
      (splitOnDash s).length = 1 := by
    intro s hs
    unfold splitOnDash
    rw [List.length_map]
    exact length_splitChars_of_not_mem _ s.data hs
  have hsplit2 : ∀ s : String, Char.ofNat 45 ∈ s.data →
      ∃ a b rest, splitOnDash s = a :: b :: rest := by
    intro s hs
    have h2 := hmem s hs
    rcases hsp : splitOnDash s with _ | ⟨a, _ | ⟨b, rest⟩⟩
    · rw [hsp] at h2; simp at h2
    · rw [hsp] at h2; simp at h2
    · exact ⟨a, b, rest, rfl⟩
  refine ⟨fun s => Nat.not_lt.2 (hge1 s), hmem, hnotmem, ?_, ?_, ?_, by decide⟩
  · intro zonesResult create domain n hdash
    obtain ⟨a, b, rest, hna⟩ := hsplit2 n.name hdash
    cases zonesResult with
    | error e => simp [CreateDNSRecordFor]
    | ok zs =>
      by_cases hzl : zs.length = 0
      · simp [CreateDNSRecordFor, hzl]
      · simp only [CreateDNSRecordFor, hzl, if_false, hna]
        cases create (a ++ "r-" ++ b ++ "." ++ domain ++ ".") with
        | ok => simp
        | conflict code msg =>
          by_cases h409 : code = 409 <;> simp [h409]
        | failed msg => simp
  · intro updateResults n hdash
    obtain ⟨a, b, rest, hna⟩ := hsplit2 n.name hdash
    simp [PrepareNode, hna]
  · intro updateResults n hdash
    have h1 := hnotmem n.name hdash
    obtain ⟨a, ha⟩ : ∃ a, splitOnDash n.name = [a] := by
      rcases hsp : splitOnDash n.name with _ | ⟨a, _ | ⟨b, rest⟩⟩
      · rw [hsp] at h1; simp at h1
      · exact ⟨a, rfl⟩
      · rw [hsp] at h1; simp at h1
    simp [PrepareNode, ha]

/-- Witness for C10: a node whose name has no dash makes PrepareNode panic
on the unguarded index. -/
theorem node_name_split_guard_witness :
    PrepareNode (fun _ => none)
      { uuid := "u"
        name := "node"
        host := ""
        ip := "10.0.0.7"
        resourceClass := ""
        instanceUUID := ""
        instanceIPv4 := "" } = GoResult.panics :=
  node_name_split_guard.2.2.2.2.2.1 (fun _ => none) _ (by decide)

/-- A second failed node carrying a live test workload, for the
compensation handler counterexample. -/
def exampleNodeB : IronicNode :=
  { uuid := "node-uuid-2"
    name := "node002-bb123"
    host := ""
    ip := "10.0.0.8"
    resourceClass := ""
    instanceUUID := "inst-43"
    instanceIPv4 := "10.0.0.100" }

/-- C8 (code bug): with two failures delivered before cancellation, both
carrying nodes with live test workloads, the handler consumes only the
first — it logs it and issues a teardown of its workload — and never
consumes the second failure: no teardown of the second workload is ever
issued, because the goroutine of initHandler returns after a single
select instead of looping. -/
theorem compensation_handler_one_shot :
    initHandler [TemperError.scheduler exampleNode "deploy failed",
        TemperError.scheduler exampleNodeB "validate failed"] =
      [HandlerAction.logFailure "node-uuid-1" "deploy failed",
        HandlerAction.teardown "inst-42"] ∧
    HandlerAction.teardown "inst-43" ∉
      initHandler [TemperError.scheduler exampleNode "deploy failed",
        TemperError.scheduler exampleNodeB "validate failed"] := by
  refine ⟨by decide, by decide⟩

end IronicTemper
